import Mathlib

/-!
Verification of the OCO-2 visualization frontend (src/frontend/src/App.js)
against its specification. JavaScript numbers are modelled as rationals (ℚ);
a field that may be missing, null, or of the wrong dynamic type is modelled
with `Option`, where `none` stands for any value that fails the corresponding
truthiness / `Array.isArray` / `typeof === number` test in the source.
-/

namespace OCO2

/-- A data record as delivered by the backend and consumed by the frontend.
`position` is the `[lon, lat]` array (`none` models a missing/non-array value),
`vertices` the footprint corner list, `xco2` the measurement value (`none`
models a missing or non-numeric value), `quality_flag` the quality indicator,
`time` the optional timestamp used by `createTrajectories`. -/
structure Measurement where
  position : Option (List ℚ)
  vertices : Option (List (ℚ × ℚ))
  xco2 : Option ℚ
  quality_flag : Option ℚ
  time : Option ℚ
deriving DecidableEq

/-- The `viewMode` React state: `'point'` or `'polygon'` (App.js line 42). -/
inductive ViewMode where
  | point
  | polygon
deriving DecidableEq

/-- The test `d.position && Array.isArray(d.position) && d.position.length === 2`
(App.js lines 63-65 and 71-73). -/
def positionOk : Option (List ℚ) → Bool
  | some pos => decide (pos.length = 2)
  | none => false

/-- The test `typeof d.xco2 === 'number' && d.xco2 >= 380 && d.xco2 <= 420`
(App.js lines 66-68 and 77-79). A `NaN` value would also be rejected by the
source's range comparison, so `none` covers it. -/
def xco2Ok : Option ℚ → Bool
  | some v => decide (380 ≤ v) && decide (v ≤ 420)
  | none => false

/-- The test `d.vertices && Array.isArray(d.vertices) && d.vertices.length === 4`
(App.js lines 74-76). Only the element count is examined; the content of the
vertex entries is never inspected by the filter. -/
def verticesOk : Option (List (ℚ × ℚ)) → Bool
  | some vs => decide (vs.length = 4)
  | none => false

/-- The body of the filter callback of `validData` (App.js lines 60-80).
The outer `d &&` makes a null/undefined array element fail in both branches;
the point branch checks position and xco2, the polygon branch additionally
checks the vertex count. -/
def validEntry (viewMode : ViewMode) (d : Option Measurement) : Bool :=
  match d with
  | none => false
  | some r =>
    match viewMode with
    | .point => positionOk r.position && xco2Ok r.xco2
    | .polygon => positionOk r.position && verticesOk r.vertices && xco2Ok r.xco2

/-- The `validData` memo (App.js lines 57-82): on an empty (or absent) `data`
array it returns `[]`, otherwise it filters by `validEntry`. -/
def validData (viewMode : ViewMode) (data : List (Option Measurement)) :
    List (Option Measurement) :=
  if data.length = 0 then []
  else data.filter (fun d => validEntry viewMode d)

/-- Membership in the filter output is membership in the input plus passing
the predicate. -/
lemma mem_validData {viewMode : ViewMode} {data : List (Option Measurement)}
    {d : Option Measurement} :
    d ∈ validData viewMode data ↔ d ∈ data ∧ validEntry viewMode d = true := by
  unfold validData
  split
  · rename_i h
    rw [List.length_eq_zero] at h
    subst h
    simp
  · exact List.mem_filter

/-- A sample fully valid measurement used by concrete witnesses. -/
def mGood : Measurement :=
  { position := some [0, 0]
    vertices := some [(0, 0), (1, 0), (1, 1), (0, 1)]
    xco2 := some 400
    quality_flag := some 0
    time := none }

/-- C1: every feature that passes `validData`, in either point or polygon mode,
carries a numeric xco2 value v with 380 ≤ v ≤ 420; no element with xco2 outside
that range (or missing) is ever present in the filter's output. -/
theorem validData_xco2_in_range (viewMode : ViewMode)
    (data : List (Option Measurement)) (d : Option Measurement)
    (hd : d ∈ validData viewMode data) :
    ∃ r v, d = some r ∧ r.xco2 = some v ∧ 380 ≤ v ∧ v ≤ 420 := by
  rw [mem_validData] at hd
  obtain ⟨-, hv⟩ := hd
  match d with
  | none => simp [validEntry] at hv
  | some r =>
    refine ⟨r, ?_⟩
    match hx : r.xco2 with
    | none =>
      cases viewMode <;>
        simp [validEntry, xco2Ok, hx] at hv
    | some v =>
      refine ⟨v, rfl, rfl, ?_⟩
      cases viewMode <;>
      · simp only [validEntry, xco2Ok, hx, Bool.and_eq_true, decide_eq_true_eq] at hv
        exact ⟨hv.2.1, hv.2.2⟩

/-- Witness for C1 at a concrete input: `mGood` passes the point-mode filter
and the theorem yields its in-range value. -/
theorem validData_xco2_in_range_witness :
    ∃ r v, (some mGood : Option Measurement) = some r ∧ r.xco2 = some v ∧
      380 ≤ v ∧ v ≤ 420 :=
  validData_xco2_in_range .point [some mGood] (some mGood) (by decide)

/-- Formalizes the spec's phrase "four vertices forming a closed ring": a
nonempty vertex list whose first vertex equals its last, i.e. an explicitly
closed linear ring. -/
def closedRing (vs : List (ℚ × ℚ)) : Prop :=
  vs ≠ [] ∧ vs.head? = vs.getLast?

instance (vs : List (ℚ × ℚ)) : Decidable (closedRing vs) := by
  unfold closedRing; infer_instance

/-- Counterexample for C2: `mGood` passes the polygon-mode filter with four
pairwise-distinct vertices whose first and last differ, so the emitted feature
does not carry a closed ring — the filter checks only the count. -/
theorem validData_closed_ring_cex :
    some mGood ∈ validData .polygon [some mGood] ∧
      mGood.vertices = some [(0, 0), (1, 0), (1, 1), (0, 1)] ∧
      ¬ closedRing [(0, 0), (1, 0), (1, 1), (0, 1)] := by
  refine ⟨by decide, rfl, by decide⟩

/-- C2 (amended): every feature present in the polygon-mode filter output has a
vertices array of exactly four elements; the filter checks only this count and
imposes no closed-ring (or any geometric) condition on the vertices. -/
theorem validData_polygon_four_vertices (data : List (Option Measurement))
    (d : Option Measurement) (hd : d ∈ validData .polygon data) :
    ∃ r vs, d = some r ∧ r.vertices = some vs ∧ vs.length = 4 := by
  rw [mem_validData] at hd
  obtain ⟨-, hv⟩ := hd
  match d with
  | none => simp [validEntry] at hv
  | some r =>
    refine ⟨r, ?_⟩
    match hx : r.vertices with
    | none => simp [validEntry, verticesOk, hx] at hv
    | some vs =>
      refine ⟨vs, rfl, rfl, ?_⟩
      simp only [validEntry, verticesOk, hx, Bool.and_eq_true, decide_eq_true_eq] at hv
      exact hv.1.2

/-- Witness for C2's amended theorem at the concrete input `[some mGood]`. -/
theorem validData_polygon_four_vertices_witness :
    ∃ r vs, (some mGood : Option Measurement) = some r ∧
      r.vertices = some vs ∧ vs.length = 4 :=
  validData_polygon_four_vertices [some mGood] (some mGood) (by decide)

/-- A measurement identical to `mGood` except for a poor quality flag. -/
def mPoor : Measurement :=
  { mGood with quality_flag := some 1 }

/-- Counterexample for C3: a record with `quality_flag = 1` (poor) but valid
position, vertices and in-range xco2 is present in the filter output in both
point and polygon mode — `validData` never examines the quality flag. -/
theorem validData_quality_flag_cex :
    mPoor.quality_flag = some 1 ∧
      some mPoor ∈ validData .point [some mPoor] ∧
      some mPoor ∈ validData .polygon [some mPoor] := by
  refine ⟨rfl, by decide, by decide⟩

/-- C3 (amended): the client-side filter is insensitive to the quality flag —
replacing a record's `quality_flag` by any value leaves its acceptance by the
filter predicate unchanged, in both modes. Quality filtering is not performed
in `validData`. -/
theorem validEntry_ignores_quality_flag (viewMode : ViewMode) (r : Measurement)
    (qf : Option ℚ) :
    validEntry viewMode (some { r with quality_flag := qf }) =
      validEntry viewMode (some r) := by
  cases viewMode <;> rfl

/-- A measurement with a valid position, in-range xco2, but only three
footprint vertices. -/
def mThreeVerts : Measurement :=
  { mGood with vertices := some [(0, 0), (1, 0), (1, 1)] }

/-- C4: a record with a valid two-element position and in-range numeric xco2
but fewer than four vertices is excluded from polygon-mode output for every
input array, while point-mode output keeps it whenever it is present in the
input. -/
theorem short_vertices_point_only (r : Measurement) (pos : List ℚ) (v : ℚ)
    (vs : List (ℚ × ℚ)) (data : List (Option Measurement))
    (hpos : r.position = some pos) (hlen : pos.length = 2)
    (hx : r.xco2 = some v) (h380 : 380 ≤ v) (h420 : v ≤ 420)
    (hvs : r.vertices = some vs) (hshort : vs.length < 4) :
    some r ∉ validData .polygon data ∧
      (some r ∈ data → some r ∈ validData .point data) := by
  constructor
  · intro hmem
    rw [mem_validData] at hmem
    have hv := hmem.2
    simp only [validEntry, verticesOk, hvs, Bool.and_eq_true, decide_eq_true_eq] at hv
    omega
  · intro hin
    rw [mem_validData]
    refine ⟨hin, ?_⟩
    simp [validEntry, positionOk, xco2Ok, hpos, hlen, hx, h380, h420]

/-- Witness for C4 at the concrete record `mThreeVerts` (three vertices) and
the one-element input array containing it. -/
theorem short_vertices_point_only_witness :
    some mThreeVerts ∉ validData .polygon [some mThreeVerts] ∧
      (some mThreeVerts ∈ [some mThreeVerts] →
        some mThreeVerts ∈ validData .point [some mThreeVerts]) :=
  short_vertices_point_only mThreeVerts [0, 0] 400 [(0, 0), (1, 0), (1, 1)]
    [some mThreeVerts] rfl (by decide) rfl (by decide) (by decide) rfl (by decide)

/-- The `getPointRadius` callback (App.js lines 161-165): radius in metres as a
function of the zoom level. -/
def getPointRadius (zoom : ℚ) : ℚ :=
  if zoom ≤ 3 then 100000
  else if zoom ≤ 5 then 75000
  else 50000

/-- C5: the point-radius function returns 100 km (100000 m) for zoom ≤ 3,
75 km (75000 m) for zoom in the 4-5 bucket, and 50 km (50000 m) for
zoom ≥ 6. -/
theorem getPointRadius_buckets (zoom : ℚ) :
    (zoom ≤ 3 → getPointRadius zoom = 100000) ∧
    (4 ≤ zoom → zoom ≤ 5 → getPointRadius zoom = 75000) ∧
    (6 ≤ zoom → getPointRadius zoom = 50000) := by
  refine ⟨fun h => ?_, fun h4 h5 => ?_, fun h6 => ?_⟩
  · simp [getPointRadius, h]
  · have h3 : ¬ zoom ≤ 3 := by linarith
    simp [getPointRadius, h3, h5]
  · have h3 : ¬ zoom ≤ 3 := by linarith
    have h5 : ¬ zoom ≤ 5 := by linarith
    simp [getPointRadius, h3, h5]

/-- Witness for C5: one concrete zoom level per bucket. -/
theorem getPointRadius_buckets_witness :
    getPointRadius 3 = 100000 ∧ getPointRadius 4 = 75000 ∧
      getPointRadius 6 = 50000 :=
  ⟨(getPointRadius_buckets 3).1 le_rfl,
   (getPointRadius_buckets 4).2.1 le_rfl (by norm_num),
   (getPointRadius_buckets 6).2.2 le_rfl⟩

/-- The React state touched by `fetchData`'s response handling: the `data`
state, the `error` state, and the console output modelled as a list of
messages. -/
structure AppState where
  data : List (Option Measurement)
  error : Option String
  log : List String
deriving DecidableEq

/-- The parsed HTTP response body: `data` is `none` when the JSON object lacks
the `data` key (or holds a null/falsy non-array value, which `!result.data`
treats the same way). -/
structure FetchResponse where
  data : Option (List (Option Measurement))
deriving DecidableEq

/-- Outcome of `await fetch(url)` / `await response.json()`: either a parsed
response, or a thrown error (network failure) carrying its message. -/
inductive FetchOutcome where
  | success (result : FetchResponse)
  | failure (msg : String)
deriving DecidableEq

/-- The response-handling tail of `fetchData` (App.js lines 123-140) as a state
transition. On `!result.data` it logs an error and returns without touching
`data` or `error`; on a response with a `data` array it logs the count and
replaces `data`; on a thrown error the catch block logs and sets `error`,
leaving `data` untouched. -/
def applyFetchOutcome (s : AppState) (o : FetchOutcome) : AppState :=
  match o with
  | .success result =>
    match result.data with
    | none => { s with log := s.log ++ ["No data property in response"] }
    | some d =>
        { s with
          data := d
          log := s.log ++ ["Received " ++ toString d.length ++ " features"] }
  | .failure msg =>
      { s with
        error := some msg
        log := s.log ++ ["Error fetching data: " ++ msg] }

/-- Counterexample for C6: starting from a state displaying one record, a
response without the `data` key leaves the displayed dataset nonempty — it
does not become empty as the claim states (the handler returns early without
calling `setData`). No error is set, so the non-fatal half of the claim
holds. -/
theorem missing_data_key_cex :
    (applyFetchOutcome ⟨[some mGood], none, []⟩
        (.success ⟨none⟩)).data ≠ [] ∧
      (applyFetchOutcome ⟨[some mGood], none, []⟩
        (.success ⟨none⟩)).error = none := by
  refine ⟨by decide, rfl⟩

/-- C6 (amended): a response JSON lacking the `data` key is treated as
non-fatal — no error is raised — and the previously displayed dataset is left
unchanged (not cleared to empty): both the `data` and `error` states are
exactly what they were before. -/
theorem missing_data_key_nonfatal (s : AppState) :
    (applyFetchOutcome s (.success ⟨none⟩)).data = s.data ∧
      (applyFetchOutcome s (.success ⟨none⟩)).error = s.error :=
  ⟨rfl, rfl⟩

/-- C7: when the fetch fails, the client catches the error, logs it, and sets
the on-screen error indicator to the error's message, while the previously
displayed data is left unchanged. -/
theorem fetch_failure_preserves_data (s : AppState) (msg : String) :
    (applyFetchOutcome s (.failure msg)).data = s.data ∧
      (applyFetchOutcome s (.failure msg)).error = some msg ∧
      (applyFetchOutcome s (.failure msg)).log =
        s.log ++ ["Error fetching data: " ++ msg] :=
  ⟨rfl, rfl, rfl⟩

/-- The globe-mode bounds computation (App.js lines 93-98): from the viewport
center, `[longitude - 90, max(-90, latitude - 45), longitude + 90,
min(90, latitude + 45)]`, returned as (minLon, minLat, maxLon, maxLat). -/
def globeBounds (longitude latitude : ℚ) : ℚ × ℚ × ℚ × ℚ :=
  (longitude - 90, max (-90) (latitude - 45),
   longitude + 90, min 90 (latitude + 45))

/-- C10: in globe mode the request bounds always satisfy -90 ≤ minLat and
maxLat ≤ 90 (latitude clamped), with minLon = centerLongitude - 90 and
maxLon = centerLongitude + 90 (a fixed 180-degree span), so the request never
carries an out-of-range latitude. -/
theorem globeBounds_clamped (longitude latitude : ℚ) :
    (globeBounds longitude latitude).1 = longitude - 90 ∧
      -90 ≤ (globeBounds longitude latitude).2.1 ∧
      (globeBounds longitude latitude).2.2.1 = longitude + 90 ∧
      (globeBounds longitude latitude).2.2.2 ≤ 90 :=
  ⟨rfl, le_max_left _ _, rfl, min_le_left _ _⟩

/-- A point as consumed by `createTrajectories`. The claim quantifies over
points with numeric two-element positions, so `position` is the pair
`(position[0], position[1]) = (lon, lat)`; `time` is the optional timestamp
(`none` models a missing field, which is falsy in `a.time || a.position[0]`). -/
structure TrajPoint where
  position : ℚ × ℚ
  time : Option ℚ
deriving DecidableEq

/-- The sort key `a.time || a.position[0]` (App.js line 174): the timestamp
when it is truthy (present and nonzero), otherwise the longitude. -/
def sortKey (p : TrajPoint) : ℚ :=
  match p.time with
  | some t => if t = 0 then p.position.1 else t
  | none => p.position.1

/-- Models `[...points].sort((a, b) => key(a) - key(b))`: a stable sort of a
copy of the array by ascending `sortKey`; the caller's array object itself is
not touched. -/
def jsSortByKey (arr : List TrajPoint) : List TrajPoint :=
  arr.insertionSort (fun a b => sortKey a ≤ sortKey b)

/-- `Math.abs`, written so that it evaluates by kernel reduction. -/
def absQ (x : ℚ) : ℚ :=
  if x < 0 then -x else x

lemma absQ_eq_abs (x : ℚ) : absQ x = |x| := by
  unfold absQ
  split
  · rename_i h
    rw [abs_of_neg h]
  · rename_i h
    rw [abs_of_nonneg (le_of_not_lt h)]

/-- The gap test of App.js lines 185-186:
`Math.abs(next.position[0] - point.position[0]) > 1 ||
 Math.abs(next.position[1] - point.position[1]) > 1`. -/
def bigGap (p q : TrajPoint) : Bool :=
  decide (1 < absQ (q.position.1 - p.position.1)) ||
    decide (1 < absQ (q.position.2 - p.position.2))

/-- The negation of the gap test: consecutive points differ by at most 1 in
both longitude and latitude. -/
def closePt (p q : TrajPoint) : Prop :=
  |q.position.1 - p.position.1| ≤ 1 ∧ |q.position.2 - p.position.2| ≤ 1

lemma bigGap_eq_false_iff_closePt {p q : TrajPoint} :
    bigGap p q = false ↔ closePt p q := by
  unfold bigGap closePt
  rw [Bool.or_eq_false_iff]
  simp only [decide_eq_false_iff_not, not_lt, absQ_eq_abs]

/-- The loop of `createTrajectories` (App.js lines 177-192), with the running
`currentLine` as the first argument: each point is appended to the current
line; at a big gap, or at the last point, the current line is emitted if it
holds more than one point and a fresh line is started. -/
def trajLoop : List TrajPoint → List TrajPoint → List (List TrajPoint)
  | _, [] => []
  | curr, p :: rest =>
    match rest with
    | [] => if 1 < (curr ++ [p]).length then [curr ++ [p]] else []
    | q :: _ =>
      if bigGap p q then
        (if 1 < (curr ++ [p]).length then [curr ++ [p]] else []) ++
          trajLoop [] rest
      else
        trajLoop (curr ++ [p]) rest

/-- The `createTrajectories` function (App.js lines 168-195). The first
component is its return value; the second is the contents of the caller's
`points` array after the call: the in-place sort is applied to the spread
copy `[...points]`, so those contents are `points` itself, unchanged. -/
def createTrajectories (points : List TrajPoint) :
    List (List TrajPoint) × List TrajPoint :=
  (trajLoop [] (jsSortByKey points), points)

/-- Every trajectory emitted by the loop has at least two points and is
chained by `closePt`, provided the accumulated line together with the next
point to be pushed is so chained. -/
lemma trajLoop_two_le_chain (xs : List TrajPoint) :
    ∀ curr : List TrajPoint, List.Chain' closePt (curr ++ xs.take 1) →
      ∀ t ∈ trajLoop curr xs, 2 ≤ t.length ∧ List.Chain' closePt t := by
  induction xs with
  | nil =>
    intro curr _ t ht
    simp [trajLoop] at ht
  | cons p rest ih =>
    intro curr hc t ht
    have hc1 : List.Chain' closePt (curr ++ [p]) := by
      simpa using hc
    match rest with
    | [] =>
      simp only [trajLoop] at ht
      split at ht
      · rename_i hlen
        rw [List.mem_singleton] at ht
        subst ht
        exact ⟨hlen, hc1⟩
      · simp at ht
    | q :: rest' =>
      simp only [trajLoop] at ht
      split at ht
      · rename_i hgap
        rw [List.mem_append] at ht
        rcases ht with ht | ht
        · split at ht
          · rename_i hlen
            rw [List.mem_singleton] at ht
            subst ht
            exact ⟨hlen, hc1⟩
          · simp at ht
        · refine ih [] ?_ t ht
          simp
      · rename_i hgap
        refine ih (curr ++ [p]) ?_ t ht
        have hclose : closePt p q :=
          bigGap_eq_false_iff_closePt.mp (Bool.of_not_eq_true hgap)
        have hlast : (curr ++ [p]).getLast? = some p := List.getLast?_concat _
        simp only [List.take_succ_cons, List.take_zero]
        rw [List.chain'_append]
        refine ⟨hc1, List.chain'_singleton q, ?_⟩
        intro x hx y hy
        rw [hlast, Option.mem_def] at hx
        simp only [List.head?_cons, Option.mem_def] at hy
        cases hx
        cases hy
        exact hclose

/-- C9: for every input list of points, every trajectory returned by
`createTrajectories` contains at least two points and every pair of
consecutive points within it differs by at most 1 in both longitude and
latitude, and the caller's input array is not mutated (the sort operates on a
copy). -/
theorem createTrajectories_spec (points : List TrajPoint) :
    (∀ t ∈ (createTrajectories points).1,
        2 ≤ t.length ∧ List.Chain' closePt t) ∧
      (createTrajectories points).2 = points := by
  refine ⟨?_, rfl⟩
  intro t ht
  refine trajLoop_two_le_chain (jsSortByKey points) [] ?_ t ht
  match jsSortByKey points with
  | [] => simp
  | x :: _ => simp

/-- Two sample points one degree of longitude apart, forming one
trajectory. -/
def pA : TrajPoint := ⟨(0, 0), none⟩

/-- Second sample point for the trajectory witness. -/
def pB : TrajPoint := ⟨(1, 0), none⟩

/-- Witness for C9 at the concrete input `[pA, pB]`, whose output is the
single trajectory `[pA, pB]`. -/
theorem createTrajectories_spec_witness :
    (2 ≤ [pA, pB].length ∧ List.Chain' closePt [pA, pB]) ∧
      (createTrajectories [pA, pB]).2 = [pA, pB] :=
  ⟨(createTrajectories_spec [pA, pB]).1 [pA, pB]
      (by norm_num [createTrajectories, trajLoop, jsSortByKey, sortKey, bigGap,
        absQ, List.insertionSort, List.orderedInsert, pA, pB]),
   (createTrajectories_spec [pA, pB]).2⟩

/-- The two kinds of change that trigger a fetch. `paramChange` is a change of
a dependency of the debounce effect (App.js lines 144-150): `viewMode`,
`isGlobeMode`, `startDate`, `endDate` (all via the `fetchData` identity) or
`landCoverVisible`; the effect's cleanup clears the pending timeout and a new
one is scheduled 500 ms later. `viewChange` is a call of
`handleViewStateChange` (App.js lines 152-157), which — with the deck ref
present, as it is during any user-driven interaction — calls `fetchData()`
immediately and does not touch the debounce timer (the effect does not depend
on `viewState`). -/
inductive EvKind where
  | paramChange
  | viewChange
deriving DecidableEq

/-- Processes a time-ordered trace of change events, carrying the pending
debounce-timer deadline, and returns the times at which a fetch is issued.
A pending timer whose deadline has passed fires before the next event is
handled; a `paramChange` at time `t` replaces the timer with deadline
`t + 500`; a `viewChange` at time `t` issues an immediate fetch; at the end of
the trace a still-pending timer fires. -/
def runEvents (pending : Option ℚ) : List (ℚ × EvKind) → List ℚ
  | [] =>
    match pending with
    | some dl => [dl]
    | none => []
  | (t, k) :: rest =>
    let fired : List ℚ :=
      match pending with
      | some dl => if dl ≤ t then [dl] else []
      | none => []
    let still : Option ℚ :=
      match pending with
      | some dl => if dl ≤ t then none else some dl
      | none => none
    match k with
    | .paramChange => fired ++ runEvents (some (t + 500)) rest
    | .viewChange => fired ++ (t :: runEvents still rest)

/-- The fetch times produced by a trace of change events starting with no
pending debounce timer. -/
def fetchTimes (events : List (ℚ × EvKind)) : List ℚ :=
  runEvents none events

/-- Counterexample for C8: two viewport changes 100 ms apart — well within the
500 ms window — each issue their own fetch, so two fetches are performed, not
at most one: `handleViewStateChange` calls `fetchData()` directly, bypassing
the debounce effect. -/
theorem view_changes_not_coalesced_cex :
    (100 : ℚ) - 0 < 500 ∧
      fetchTimes [((0 : ℚ), EvKind.viewChange), ((100 : ℚ), EvKind.viewChange)] =
        [0, 100] ∧
      ¬ (fetchTimes [((0 : ℚ), EvKind.viewChange),
          ((100 : ℚ), EvKind.viewChange)]).length ≤ 1 := by
  refine ⟨by norm_num, rfl, by norm_num [fetchTimes, runEvents]⟩

/-- Helper for the amended C8: starting from a pending timer that is not yet
due at the first event, a run of parameter changes with increasing times and
gaps below 500 ms never lets the timer fire early, so exactly one fetch
results, scheduled 500 ms after the last change. -/
lemma runEvents_param_coalesce (ts : List ℚ) :
    ∀ dl : ℚ, List.Chain' (fun a b => a < b ∧ b - a < 500) ts →
      (∀ h, ts.head? = some h → h < dl) →
      runEvents (some dl) (ts.map (fun t => (t, EvKind.paramChange))) =
        [ts.getLastD (dl - 500) + 500] := by
  induction ts with
  | nil =>
    intro dl _ _
    simp [runEvents]
  | cons t rest ih =>
    intro dl hch hdl
    have ht : t < dl := hdl t rfl
    have hnot : ¬ dl ≤ t := not_le.mpr ht
    simp only [List.map_cons, runEvents, hnot, if_false]
    rw [List.getLastD_cons]
    match rest with
    | [] =>
      simp [runEvents]
    | u :: rest' =>
      have hch' : List.Chain' (fun a b => a < b ∧ b - a < 500) (u :: rest') :=
        hch.tail
      have hu : u < t + 500 := by
        have h1 := (List.chain'_cons.mp hch).1
        linarith [h1.1, h1.2]
      have hhead : ∀ h, (u :: rest').head? = some h → h < t + 500 := by
        intro h hh
        simp only [List.head?_cons, Option.some.injEq] at hh
        subst hh
        exact hu
      rw [ih (t + 500) hch' hhead]
      simp only [List.nil_append, List.getLastD_cons]

/-- C8 (amended): changes to the fetch parameters (view mode, globe mode,
date range, land-cover visibility) are coalesced by the 500 ms debounce
effect: for every nonempty run of parameter changes with strictly increasing
times and consecutive gaps below 500 ms, exactly one fetch is issued, 500 ms
after the last change. Viewport changes are not coalesced (see the
counterexample): each issues an immediate fetch. -/
theorem param_changes_coalesced (t : ℚ) (rest : List ℚ)
    (hch : List.Chain' (fun a b => a < b ∧ b - a < 500) (t :: rest)) :
    fetchTimes ((t :: rest).map (fun u => (u, EvKind.paramChange))) =
      [(t :: rest).getLast (List.cons_ne_nil t rest) + 500] ∧
      (fetchTimes ((t :: rest).map (fun u => (u, EvKind.paramChange)))).length
        = 1 := by
  have hrun :
      fetchTimes ((t :: rest).map (fun u => (u, EvKind.paramChange))) =
        [rest.getLastD t + 500] := by
    unfold fetchTimes
    simp only [List.map_cons, runEvents]
    match rest with
    | [] =>
      simp [runEvents]
    | u :: rest' =>
      have hu : u < t + 500 := by
        have h1 := (List.chain'_cons.mp hch).1
        linarith [h1.1, h1.2]
      have hhead : ∀ h, (u :: rest').head? = some h → h < t + 500 := by
        intro h hh
        simp only [List.head?_cons, Option.some.injEq] at hh
        subst hh
        exact hu
      rw [runEvents_param_coalesce (u :: rest') (t + 500) hch.tail hhead]
      simp only [List.nil_append, List.getLastD_cons]
  rw [hrun]
  refine ⟨?_, rfl⟩
  rw [List.getLast_eq_getLastD]

/-- Witness for C8's amended theorem: three parameter changes at 0, 100 and
300 ms yield the single fetch time 800 ms. -/
theorem param_changes_coalesced_witness :
    fetchTimes (([(0 : ℚ), 100, 300]).map (fun u => (u, EvKind.paramChange))) =
      [([(0 : ℚ), 100, 300]).getLast (List.cons_ne_nil 0 [100, 300]) + 500] ∧
      (fetchTimes (([(0 : ℚ), 100, 300]).map
        (fun u => (u, EvKind.paramChange)))).length = 1 :=
  param_changes_coalesced 0 [100, 300]
    (by norm_num [List.chain'_cons, List.chain'_singleton])

end OCO2
